import Mathlib

/-!
Formal model of `src/main.rs` of the xq-stream-test repository: a program that
walks JSON/YAML documents with a serde visitor, maintaining a mutable path
stack, and emits one path-tagged record per scalar plus one closing record per
completed non-empty composite, through a bounded channel to a printing loop.

The Rust visitor (`impl Visitor for &mut StreamState`) is driven by the parser;
for a well-formed in-memory document the parser invokes exactly one visit
method per node, in depth-first order.  We therefore embed the traversal as a
recursive function `visit` over a document tree `Json`, threading the
`StreamState` explicitly.  The mpsc `SyncSender` is modelled by the `connected`
flag (whether the receiving end is still alive), the list `out` of records the
channel actually delivered, and a counter `attempts` of `send` calls; Rust's
`send(..).ok()` delivers the record when the receiver is alive and silently
discards the `SendError` otherwise, which is exactly what `send` below does.
-/

namespace XqStream

/-- One step of a path: `Index::Array(usize)` or `Index::Map(String)` from the
source (`enum Index`). -/
inductive Index where
  | array (i : Nat)
  | map (s : String)
deriving DecidableEq, Repr

/-- `type Path = Vec<Index>` from the source.  The Rust `Vec` pushes and pops
at the end, so `push` is modelled by appending a singleton and `pop` by
`List.dropLast`. -/
abbrev Path := List Index

/-- `enum PrimitiveValue` from the source.  The Rust `Number` variant carries
an `f64`; every number reaching it in this program is a 64-bit integer cast
with `as f64` (see `toF64`), so the model carries the resulting integer. -/
inductive PrimitiveValue where
  | null
  | boolean (b : Bool)
  | number (v : Int)
  | string (s : String)
  | emptyArray
  | emptyObject
deriving DecidableEq, Repr

/-- `struct PathValue` from the source: a snapshot of a path together with an
optional scalar.  `value = none` is a closing record. -/
structure PathValue where
  path : Path
  value : Option PrimitiveValue
deriving DecidableEq, Repr

/-- Number of binary digits of `n`, with explicit fuel so that the kernel can
evaluate it; 64 units of fuel cover every `u64`/`i64` magnitude that the Rust
program can cast. -/
def bitLenAux : Nat → Nat → Nat
  | 0, _ => 0
  | fuel + 1, n => if n = 0 then 0 else bitLenAux fuel (n / 2) + 1

/-- Number of binary digits of a 64-bit integer magnitude. -/
def bitLen (n : Nat) : Nat := bitLenAux 64 n

/-- Models Rust's `v as f64` cast on a 64-bit integer (`visit_i64` and
`visit_u64` both emit `PrimitiveValue::Number(v as f64)`): round to the
nearest IEEE-754 double, ties to even.  Magnitudes up to `2^53` are exactly
representable; above that, the bits below the 53-bit significand are rounded
away.  All `i64`/`u64` values are far inside the double's exponent range, so
no overflow case is needed. -/
def toF64 (n : Int) : Int :=
  let m := n.natAbs
  if m ≤ 2 ^ 53 then n
  else
    let k := bitLen m - 53
    let q := m / 2 ^ k
    let r := m % 2 ^ k
    let q2 :=
      if 2 * r < 2 ^ k then q
      else if 2 ^ k < 2 * r then q + 1
      else if q % 2 = 0 then q else q + 1
    Int.sign n * Int.ofNat (q2 * 2 ^ k)

/-- `struct StreamState` from the source, together with the observable state of
its `SyncSender<Result<PathValue>>`: `connected` records whether the receiving
end of the channel is still alive, `out` the records actually delivered to the
channel so far, and `attempts` how many `send` calls were made. -/
structure StreamState where
  connected : Bool
  path : Path
  out : List PathValue
  attempts : Nat
deriving Repr

/-- Models `self.sender.send(Ok(r)).ok()`: when the receiver is alive the
record is delivered; otherwise `send` returns `Err(SendError)`, which the
source discards with `.ok()` — nothing else happens and execution continues. -/
def send (s : StreamState) (r : PathValue) : StreamState :=
  { s with
    out := if s.connected then s.out ++ [r] else s.out
    attempts := s.attempts + 1 }

/-- `StreamState::emit_value` from the source: sends a record with a clone of
the current path and the given scalar value. -/
def emit_value (s : StreamState) (v : PrimitiveValue) : StreamState :=
  send s ⟨s.path, some v⟩

/-- `StreamState::emit_close` from the source: sends a record with a clone of
the current path and no value. -/
def emit_close (s : StreamState) : StreamState :=
  send s ⟨s.path, none⟩

/-- `self.path.push(i)` from the source (`Vec::push` appends at the end). -/
def pushStep (s : StreamState) (i : Index) : StreamState :=
  { s with path := s.path ++ [i] }

/-- `self.path.pop()` from the source (`Vec::pop` removes the last element;
the popped value is always discarded by the program). -/
def popStep (s : StreamState) : StreamState :=
  { s with path := s.path.dropLast }

mutual

/-- Document tree: one top-level parse unit as the serde deserializer delivers
it to the visitor.  Scalars are null, boolean, 64-bit integer number (the
`visit_i64`/`visit_u64` entry points; `visit_f64` applies the identity cast
and is subsumed for the integral doubles exercised here), and string; `arr`
and `obj` drive `visit_seq` and `visit_map`.  Map keys are strings (the `Str`
seed in `visit_map` demands a string key). -/
inductive Json where
  | null
  | bool (b : Bool)
  | num (n : Int)
  | str (s : String)
  | arr (xs : JsonList)
  | obj (kvs : JsonPairs)

/-- Elements of an array node, in parse order. -/
inductive JsonList where
  | nil
  | cons (hd : Json) (tl : JsonList)

/-- Key/value pairs of a map node, in parse order. -/
inductive JsonPairs where
  | nil
  | cons (key : String) (val : Json) (tl : JsonPairs)

end

mutual

/-- The visitor methods of `impl Visitor for &mut StreamState`, one branch per
node kind.  Scalar branches are `visit_bool`/`visit_i64`/`visit_u64`/
`visit_str`/`visit_unit`; the `arr` branch is `visit_seq` (push index 0, loop,
pop the trailing unused index, then either emit `EmptyArray` or push the last
index, emit a closing record and pop); the `obj` branches are `visit_map`
(push a placeholder key `""`, loop replacing it with each real key, then
either pop and emit `EmptyObject`, or emit a closing record and pop). -/
def visit : Json → StreamState → StreamState
  | .null, s => emit_value s .null
  | .bool b, s => emit_value s (.boolean b)
  | .num n, s => emit_value s (.number (toF64 n))
  | .str v, s => emit_value s (.string v)
  | .arr xs, s =>
      let s0 := pushStep s (.array 0)
      let r := visitSeqLoop xs 0 s0
      let s1 := popStep r.1
      if r.2 = 0 then
        emit_value s1 .emptyArray
      else
        popStep (emit_close (pushStep s1 (.array (r.2 - 1))))
  | .obj .nil, s =>
      emit_value (popStep (pushStep s (.map ""))) .emptyObject
  | .obj (.cons k v tl), s =>
      popStep (emit_close (visitMapLoop (.cons k v tl) (pushStep s (.map ""))))

/-- The `while seq.next_element_seed(&mut *self)?.is_some()` loop of
`visit_seq`: with the path ending in `Array(i)`, visit the next element, then
pop, increment the index and push it again.  Returns the final state together
with the final value of `i` (the element count when started at 0). -/
def visitSeqLoop : JsonList → Nat → StreamState → StreamState × Nat
  | .nil, i, s => (s, i)
  | .cons x tl, i, s =>
      let s1 := visit x s
      visitSeqLoop tl (i + 1) (pushStep (popStep s1) (.array (i + 1)))

/-- The `while let Some(key) = map.next_key_seed(Str)?` loop of `visit_map`:
for each pair, pop the previous key (initially the placeholder `""`), push the
real key, and visit the value. -/
def visitMapLoop : JsonPairs → StreamState → StreamState
  | .nil, s => s
  | .cons k v tl, s =>
      visitMapLoop tl (visit v (pushStep (popStep s) (.map k)))

end

/-- Length of an array node's element list (the final value of the loop
counter `i` of `visit_seq` when started at 0). -/
def lenL : JsonList → Nat
  | .nil => 0
  | .cons _ tl => lenL tl + 1

/-- The key left on top of the path stack after the `visit_map` loop: the last
key of the pair list, or the default (the placeholder pushed before the loop)
when the list is empty. -/
def lastKeyD : JsonPairs → String → String
  | .nil, d => d
  | .cons k _ tl, _ => lastKeyD tl k

/-- Records delivered to the channel by visiting `j` with path stack `p`,
receiver-alive flag `c`, and a fresh channel history. -/
def visitOut (j : Json) (c : Bool) (p : Path) : List PathValue :=
  (visit j ⟨c, p, [], 0⟩).out

/-- Send attempts made while visiting `j` with path stack `p` and
receiver-alive flag `c`. -/
def visitAtt (j : Json) (c : Bool) (p : Path) : Nat :=
  (visit j ⟨c, p, [], 0⟩).attempts

/-- Records delivered by the `visit_seq` loop run over `xs` from counter `i`,
with the path stack ending in `Array(i)` as the loop invariant demands. -/
def seqLoopOut (xs : JsonList) (i : Nat) (c : Bool) (p : Path) : List PathValue :=
  ((visitSeqLoop xs i ⟨c, p ++ [.array i], [], 0⟩).1).out

/-- Send attempts made by the `visit_seq` loop run over `xs` from counter `i`. -/
def seqLoopAtt (xs : JsonList) (i : Nat) (c : Bool) (p : Path) : Nat :=
  ((visitSeqLoop xs i ⟨c, p ++ [.array i], [], 0⟩).1).attempts

/-- Records delivered by the `visit_map` loop run over `kvs`, with the path
stack ending in the previously pushed key `k0`. -/
def mapLoopOut (kvs : JsonPairs) (c : Bool) (p : Path) (k0 : String) : List PathValue :=
  (visitMapLoop kvs ⟨c, p ++ [.map k0], [], 0⟩).out

/-- Send attempts made by the `visit_map` loop run over `kvs`. -/
def mapLoopAtt (kvs : JsonPairs) (c : Bool) (p : Path) (k0 : String) : Nat :=
  (visitMapLoop kvs ⟨c, p ++ [.map k0], [], 0⟩).attempts

/-- The record sequence the traversal of document `j` delivers under a live
receiver, starting from path stack `p` (the program starts each document at
`p = []`, see `Stream::deserialize`). -/
def streamRecords (j : Json) (p : Path) : List PathValue :=
  visitOut j true p

/-- Records delivered by the `visit_seq` loop under a live receiver. -/
def seqRecords (xs : JsonList) (i : Nat) (p : Path) : List PathValue :=
  seqLoopOut xs i true p

/-- Records delivered by the `visit_map` loop under a live receiver. -/
def mapRecords (kvs : JsonPairs) (p : Path) (k0 : String) : List PathValue :=
  mapLoopOut kvs true p k0

mutual

/-- Modelled from the spec: the number of scalar nodes of a document, counting
`Null`, `Boolean`, `Number` and `String` leaves and counting an empty array or
empty map as one scalar (the `EmptyArray`/`EmptyObject` sentinels). -/
def numScalars : Json → Nat
  | .null => 1
  | .bool _ => 1
  | .num _ => 1
  | .str _ => 1
  | .arr .nil => 1
  | .arr (.cons x tl) => numScalarsL (.cons x tl)
  | .obj .nil => 1
  | .obj (.cons k v tl) => numScalarsP (.cons k v tl)

/-- Scalar count summed over an array's elements. -/
def numScalarsL : JsonList → Nat
  | .nil => 0
  | .cons x tl => numScalars x + numScalarsL tl

/-- Scalar count summed over a map's values. -/
def numScalarsP : JsonPairs → Nat
  | .nil => 0
  | .cons _ v tl => numScalars v + numScalarsP tl

end

mutual

/-- Modelled from the spec: the number of non-empty composite (array or map)
nodes of a document. -/
def numNonemptyComposites : Json → Nat
  | .null => 0
  | .bool _ => 0
  | .num _ => 0
  | .str _ => 0
  | .arr .nil => 0
  | .arr (.cons x tl) => numNonemptyCompositesL (.cons x tl) + 1
  | .obj .nil => 0
  | .obj (.cons k v tl) => numNonemptyCompositesP (.cons k v tl) + 1

/-- Non-empty composite count summed over an array's elements. -/
def numNonemptyCompositesL : JsonList → Nat
  | .nil => 0
  | .cons x tl => numNonemptyComposites x + numNonemptyCompositesL tl

/-- Non-empty composite count summed over a map's values. -/
def numNonemptyCompositesP : JsonPairs → Nat
  | .nil => 0
  | .cons _ v tl => numNonemptyComposites v + numNonemptyCompositesP tl

end

/-- Escapes one character the way Rust's `Debug` formatting of a string does
for the characters this program can print (quote, backslash, and the common
control characters). -/
def escapeChar (c : Char) : String :=
  if c = '"' then "\\\""
  else if c = '\\' then "\\\\"
  else if c = '\n' then "\\n"
  else if c = '\t' then "\\t"
  else if c = '\r' then "\\r"
  else String.singleton c

/-- Rust `{s:?}` formatting of a string: quoted, with escapes. -/
def debugQuote (s : String) : String :=
  "\"" ++ String.join (s.toList.map escapeChar) ++ "\""

/-- One path step as `PathValue::print` writes it: `{i}` for an array index,
`{s:?}` for a map key. -/
def renderStep : Index → String
  | .array i => toString i
  | .map s => debugQuote s

/-- One scalar as `PathValue::print` writes it.  Rust prints the `f64` in
`Number` with `{v}` (shortest representation, so an integral double prints
with no fractional part, e.g. `1` for `1.0`); the model's integral `Number`
prints its integer. -/
def renderValue : PrimitiveValue → String
  | .null => "null"
  | .boolean b => if b then "true" else "false"
  | .number v => toString v
  | .string s => debugQuote s
  | .emptyArray => "[]"
  | .emptyObject => "\x7b\x7d"

/-- The line `PathValue::print` writes for one record: the path in brackets,
then optionally a comma and the value, all wrapped in one more bracket pair. -/
def render (r : PathValue) : String :=
  "[[" ++ String.intercalate "," (r.path.map renderStep) ++ "]" ++
    (match r.value with
     | none => ""
     | some v => "," ++ renderValue v) ++ "]"

/-- One item of the multi-document iterator that `main_generic` drains
(`de.into_multidoc_iter::<Stream>()`).  `ok doc` is a document that parsed
completely; deserializing it as `Stream` sends its traversal records.  `fail
sent msg` is a parse failure: the visitor had already sent the records `sent`
(whatever prefix of the document the parser managed to deliver) before the
deserializer returned the error `msg`. -/
inductive ParseResult where
  | ok (doc : Json)
  | fail (sent : List PathValue) (msg : String)

/-- The sequence of values the producer thread of `main_generic` places on the
channel, under a live receiver: every document is traversed with a fresh empty
path (`Stream::deserialize` creates `path = vec![]`); on the first parse error
the producer sends one `Err(anyhow!("Deserialization error: {e}"))` and
breaks, so nothing after the error is ever sent. -/
def producerOutput : List ParseResult → List (Except String PathValue)
  | [] => []
  | ParseResult.ok d :: rest =>
      (streamRecords d []).map Except.ok ++ producerOutput rest
  | ParseResult.fail sent msg :: _ =>
      sent.map Except.ok ++ [Except.error ("Deserialization error: " ++ msg)]

/-- The consumer loop of `main`: each `Ok` record is printed to standard
output with `PathValue::print`, each `Err` is printed to standard error with
`eprintln!`.  Returns the standard-output lines and the standard-error
lines. -/
def consumeLoop : List (Except String PathValue) → List String × List String
  | [] => ([], [])
  | Except.ok v :: rest =>
      let r := consumeLoop rest
      (render v :: r.1, r.2)
  | Except.error e :: rest =>
      let r := consumeLoop rest
      (r.1, e :: r.2)

/-- Observable outcome of one run of `main`: the two output streams and the
value `main` returns. -/
structure RunResult where
  stdoutLines : List String
  stderrLines : List String
  exitResult : Except String Unit

/-- `fn main`: drain `main_generic`, print every `Ok` record, print every
`Err` to the error stream, and finally return `Ok(())` unconditionally. -/
def mainRun (items : List ParseResult) : RunResult :=
  let o := consumeLoop (producerOutput items)
  ⟨o.1, o.2, Except.ok ()⟩

/-- The error messages contained in a delivered sequence, in order. -/
def errLines : List (Except String PathValue) → List String
  | [] => []
  | Except.ok _ :: rest => errLines rest
  | Except.error e :: rest => e :: errLines rest

/-- The document parsed from the JSON input of the spec's worked example,
`\x7b"a":[1,2],"b":\x7b\x7d\x7d`. -/
def exampleDoc : Json :=
  .obj (.cons "a" (.arr (.cons (.num 1) (.cons (.num 2) .nil)))
    (.cons "b" (.obj .nil) .nil))

/-- Popping right after a push restores the path stack. -/
theorem dropLast_snoc (l : List Index) (x : Index) : (l ++ [x]).dropLast = l := by
  simp

mutual

/-- Visiting from an arbitrary channel history: the path stack is restored,
the delivered records of this call are appended to the history, and the
attempt counter advances by this call's attempts.  In particular the visitor
reads the state only through the path stack and the receiver-alive flag. -/
theorem visit_shift : (j : Json) → ∀ (c : Bool) (p : Path) (o : List PathValue) (a : Nat),
    visit j ⟨c, p, o, a⟩ = ⟨c, p, o ++ visitOut j c p, a + visitAtt j c p⟩
  | .null => by
      intro c p o a
      cases c <;> simp [visit, visitOut, visitAtt, emit_value, send]
  | .bool b => by
      intro c p o a
      cases c <;> simp [visit, visitOut, visitAtt, emit_value, send]
  | .num n => by
      intro c p o a
      cases c <;> simp [visit, visitOut, visitAtt, emit_value, send]
  | .str v => by
      intro c p o a
      cases c <;> simp [visit, visitOut, visitAtt, emit_value, send]
  | .arr .nil => by
      intro c p o a
      cases c <;>
        simp [visit, visitOut, visitAtt, visitSeqLoop, pushStep, popStep,
          emit_value, send, dropLast_snoc]
  | .arr (.cons x tl) => by
      intro c p o a
      simp only [visit, visitOut, visitAtt, pushStep]
      rw [seqLoop_shift (.cons x tl) 0 c p o a, seqLoop_shift (.cons x tl) 0 c p [] 0]
      cases c <;>
        simp [lenL, popStep, pushStep, emit_close, send, dropLast_snoc,
          List.append_assoc, Nat.add_assoc]
  | .obj .nil => by
      intro c p o a
      cases c <;>
        simp [visit, visitOut, visitAtt, pushStep, popStep, emit_value, send,
          dropLast_snoc]
  | .obj (.cons k v tl) => by
      intro c p o a
      simp only [visit, visitOut, visitAtt, pushStep]
      rw [mapLoop_shift (.cons k v tl) c p "" o a, mapLoop_shift (.cons k v tl) c p "" [] 0]
      cases c <;>
        simp [popStep, emit_close, send, dropLast_snoc, List.append_assoc,
          Nat.add_assoc]

/-- The `visit_seq` loop from an arbitrary channel history: starting with the
path stack ending in `Array(i)`, it finishes with the stack ending in
`Array(i + len)`, returns the counter `i + len`, and appends its delivered
records to the history. -/
theorem seqLoop_shift : (xs : JsonList) → ∀ (i : Nat) (c : Bool) (p : Path)
    (o : List PathValue) (a : Nat),
    visitSeqLoop xs i ⟨c, p ++ [.array i], o, a⟩ =
      (⟨c, p ++ [.array (i + lenL xs)], o ++ seqLoopOut xs i c p,
        a + seqLoopAtt xs i c p⟩, i + lenL xs)
  | .nil => by
      intro i c p o a
      simp [visitSeqLoop, seqLoopOut, seqLoopAtt, lenL]
  | .cons x tl => by
      intro i c p o a
      simp only [visitSeqLoop, seqLoopOut, seqLoopAtt]
      rw [visit_shift x c (p ++ [Index.array i]) o a,
        visit_shift x c (p ++ [Index.array i]) [] 0]
      simp only [popStep, pushStep, dropLast_snoc]
      rw [seqLoop_shift tl (i + 1) c p (o ++ visitOut x c (p ++ [Index.array i]))
          (a + visitAtt x c (p ++ [Index.array i])),
        seqLoop_shift tl (i + 1) c p ([] ++ visitOut x c (p ++ [Index.array i]))
          (0 + visitAtt x c (p ++ [Index.array i]))]
      simp [lenL, List.append_assoc, Nat.add_assoc, Nat.add_comm, Nat.add_left_comm]

/-- The `visit_map` loop from an arbitrary channel history: starting with the
path stack ending in the previously pushed key, it finishes with the stack
ending in the last key seen (or the previous key if no pair was seen), and
appends its delivered records to the history. -/
theorem mapLoop_shift : (kvs : JsonPairs) → ∀ (c : Bool) (p : Path) (k0 : String)
    (o : List PathValue) (a : Nat),
    visitMapLoop kvs ⟨c, p ++ [.map k0], o, a⟩ =
      ⟨c, p ++ [.map (lastKeyD kvs k0)], o ++ mapLoopOut kvs c p k0,
        a + mapLoopAtt kvs c p k0⟩
  | .nil => by
      intro c p k0 o a
      simp [visitMapLoop, mapLoopOut, mapLoopAtt, lastKeyD]
  | .cons k v tl => by
      intro c p k0 o a
      simp only [visitMapLoop, mapLoopOut, mapLoopAtt, popStep, pushStep, dropLast_snoc]
      rw [visit_shift v c (p ++ [Index.map k]) o a,
        visit_shift v c (p ++ [Index.map k]) [] 0]
      rw [mapLoop_shift tl c p k (o ++ visitOut v c (p ++ [Index.map k]))
          (a + visitAtt v c (p ++ [Index.map k])),
        mapLoop_shift tl c p k ([] ++ visitOut v c (p ++ [Index.map k]))
          (0 + visitAtt v c (p ++ [Index.map k]))]
      simp [lastKeyD, List.append_assoc, Nat.add_assoc, Nat.add_comm, Nat.add_left_comm]

end

/-- `visit_unit`/`visit_none` deliver one `Null` record at the current path
when the receiver is alive, and nothing otherwise. -/
theorem visitOut_null (c : Bool) (p : Path) :
    visitOut .null c p = if c then [⟨p, some .null⟩] else [] := by
  cases c <;> simp [visitOut, visit, emit_value, send]

/-- `visit_bool` delivers one `Boolean` record at the current path. -/
theorem visitOut_bool (b : Bool) (c : Bool) (p : Path) :
    visitOut (.bool b) c p = if c then [⟨p, some (.boolean b)⟩] else [] := by
  cases c <;> simp [visitOut, visit, emit_value, send]

/-- `visit_i64`/`visit_u64` deliver one `Number` record carrying the `as f64`
cast of the integer. -/
theorem visitOut_num (n : Int) (c : Bool) (p : Path) :
    visitOut (.num n) c p = if c then [⟨p, some (.number (toF64 n))⟩] else [] := by
  cases c <;> simp [visitOut, visit, emit_value, send]

/-- `visit_str`/`visit_string` deliver one `String` record. -/
theorem visitOut_str (v : String) (c : Bool) (p : Path) :
    visitOut (.str v) c p = if c then [⟨p, some (.string v)⟩] else [] := by
  cases c <;> simp [visitOut, visit, emit_value, send]

/-- `visit_seq` on a zero-element array delivers exactly one `EmptyArray`
record at the array's own path and nothing else — the `i == 0` branch. -/
theorem visitOut_arr_nil (c : Bool) (p : Path) :
    visitOut (.arr .nil) c p = if c then [⟨p, some .emptyArray⟩] else [] := by
  cases c <;>
    simp [visitOut, visit, visitSeqLoop, pushStep, popStep, emit_value, send,
      dropLast_snoc]

/-- `visit_seq` on a non-empty array delivers the loop's records followed by
exactly one closing record at the path ending in the last processed index
`len - 1`. -/
theorem visitOut_arr_cons (x : Json) (tl : JsonList) (c : Bool) (p : Path) :
    visitOut (.arr (.cons x tl)) c p =
      seqLoopOut (.cons x tl) 0 c p ++
        (if c then [⟨p ++ [.array (lenL tl)], none⟩] else []) := by
  simp only [visitOut, visit, pushStep]
  rw [seqLoop_shift (.cons x tl) 0 c p [] 0]
  cases c <;>
    simp [lenL, popStep, pushStep, emit_close, send, dropLast_snoc]

/-- `visit_map` on a zero-pair map delivers exactly one `EmptyObject` record
at the map's own path and nothing else — the `empty` branch. -/
theorem visitOut_obj_nil (c : Bool) (p : Path) :
    visitOut (.obj .nil) c p = if c then [⟨p, some .emptyObject⟩] else [] := by
  cases c <;>
    simp [visitOut, visit, pushStep, popStep, emit_value, send, dropLast_snoc]

/-- `visit_map` on a non-empty map delivers the loop's records followed by
exactly one closing record at the path ending in the last key seen. -/
theorem visitOut_obj_cons (k : String) (v : Json) (tl : JsonPairs) (c : Bool) (p : Path) :
    visitOut (.obj (.cons k v tl)) c p =
      mapLoopOut (.cons k v tl) c p "" ++
        (if c then [⟨p ++ [.map (lastKeyD tl k)], none⟩] else []) := by
  simp only [visitOut, visit, pushStep]
  rw [mapLoop_shift (.cons k v tl) c p "" [] 0]
  cases c <;>
    simp [lastKeyD, popStep, emit_close, send, dropLast_snoc]

/-- An exhausted `visit_seq` loop delivers nothing. -/
theorem seqLoopOut_nil (i : Nat) (c : Bool) (p : Path) :
    seqLoopOut .nil i c p = [] := rfl

/-- One `visit_seq` loop iteration: the records of the element visited at
index `i`, then the records of the rest of the loop at index `i + 1`. -/
theorem seqLoopOut_cons (x : Json) (tl : JsonList) (i : Nat) (c : Bool) (p : Path) :
    seqLoopOut (.cons x tl) i c p =
      visitOut x c (p ++ [.array i]) ++ seqLoopOut tl (i + 1) c p := by
  simp only [seqLoopOut, visitSeqLoop]
  rw [visit_shift x c (p ++ [Index.array i]) [] 0]
  simp only [popStep, pushStep, dropLast_snoc]
  rw [seqLoop_shift tl (i + 1) c p ([] ++ visitOut x c (p ++ [Index.array i]))
      (0 + visitAtt x c (p ++ [Index.array i]))]
  simp
  rfl

/-- An exhausted `visit_map` loop delivers nothing. -/
theorem mapLoopOut_nil (c : Bool) (p : Path) (k0 : String) :
    mapLoopOut .nil c p k0 = [] := rfl

/-- One `visit_map` loop iteration: pop the previous key, push the real key
`k`, visit the value, then the rest of the loop with `k` now on the stack. -/
theorem mapLoopOut_cons (k : String) (v : Json) (tl : JsonPairs) (c : Bool)
    (p : Path) (k0 : String) :
    mapLoopOut (.cons k v tl) c p k0 =
      visitOut v c (p ++ [.map k]) ++ mapLoopOut tl c p k := by
  simp only [mapLoopOut, visitMapLoop, popStep, pushStep, dropLast_snoc]
  rw [visit_shift v c (p ++ [Index.map k]) [] 0]
  rw [mapLoop_shift tl c p k ([] ++ visitOut v c (p ++ [Index.map k]))
      (0 + visitAtt v c (p ++ [Index.map k]))]
  simp
  rfl

mutual

/-- Whether or not the receiver is alive, visiting a document attempts one
send per scalar node plus one per non-empty composite node: a dropped
receiver does not shorten the traversal. -/
theorem visitAtt_count : (j : Json) → ∀ (c : Bool) (p : Path),
    visitAtt j c p = numScalars j + numNonemptyComposites j
  | .null => by
      intro c p
      simp [visitAtt, visit, emit_value, send, numScalars, numNonemptyComposites]
  | .bool b => by
      intro c p
      simp [visitAtt, visit, emit_value, send, numScalars, numNonemptyComposites]
  | .num n => by
      intro c p
      simp [visitAtt, visit, emit_value, send, numScalars, numNonemptyComposites]
  | .str v => by
      intro c p
      simp [visitAtt, visit, emit_value, send, numScalars, numNonemptyComposites]
  | .arr .nil => by
      intro c p
      simp [visitAtt, visit, visitSeqLoop, pushStep, popStep, emit_value, send,
        numScalars, numNonemptyComposites]
  | .arr (.cons x tl) => by
      intro c p
      simp only [visitAtt, visit, pushStep]
      rw [seqLoop_shift (.cons x tl) 0 c p [] 0]
      simp only [lenL, popStep, pushStep, emit_close, send]
      have h := seqLoopAtt_count (.cons x tl) 0 c p
      simp only [numScalarsL, numNonemptyCompositesL] at h
      simp [h, numScalars, numNonemptyComposites, numScalarsL,
        numNonemptyCompositesL]
      omega
  | .obj .nil => by
      intro c p
      simp [visitAtt, visit, pushStep, popStep, emit_value, send, numScalars,
        numNonemptyComposites]
  | .obj (.cons k v tl) => by
      intro c p
      simp only [visitAtt, visit, pushStep]
      rw [mapLoop_shift (.cons k v tl) c p "" [] 0]
      simp only [popStep, emit_close, send]
      have h := mapLoopAtt_count (.cons k v tl) c p ""
      simp only [numScalarsP, numNonemptyCompositesP] at h
      simp [h, numScalars, numNonemptyComposites, numScalarsP,
        numNonemptyCompositesP]
      omega

/-- Send attempts of the `visit_seq` loop: one per scalar plus one per
non-empty composite among the elements' subtrees. -/
theorem seqLoopAtt_count : (xs : JsonList) → ∀ (i : Nat) (c : Bool) (p : Path),
    seqLoopAtt xs i c p = numScalarsL xs + numNonemptyCompositesL xs
  | .nil => by
      intro i c p
      simp [seqLoopAtt, visitSeqLoop, numScalarsL, numNonemptyCompositesL]
  | .cons x tl => by
      intro i c p
      simp only [seqLoopAtt, visitSeqLoop]
      rw [visit_shift x c (p ++ [Index.array i]) [] 0]
      simp only [popStep, pushStep, dropLast_snoc]
      rw [seqLoop_shift tl (i + 1) c p ([] ++ visitOut x c (p ++ [Index.array i]))
          (0 + visitAtt x c (p ++ [Index.array i]))]
      have h1 := visitAtt_count x c (p ++ [Index.array i])
      have h2 := seqLoopAtt_count tl (i + 1) c p
      simp [h1, h2, numScalarsL, numNonemptyCompositesL]
      omega

/-- Send attempts of the `visit_map` loop: one per scalar plus one per
non-empty composite among the values' subtrees. -/
theorem mapLoopAtt_count : (kvs : JsonPairs) → ∀ (c : Bool) (p : Path) (k0 : String),
    mapLoopAtt kvs c p k0 = numScalarsP kvs + numNonemptyCompositesP kvs
  | .nil => by
      intro c p k0
      simp [mapLoopAtt, visitMapLoop, numScalarsP, numNonemptyCompositesP]
  | .cons k v tl => by
      intro c p k0
      simp only [mapLoopAtt, visitMapLoop, popStep, pushStep, dropLast_snoc]
      rw [visit_shift v c (p ++ [Index.map k]) [] 0]
      rw [mapLoop_shift tl c p k ([] ++ visitOut v c (p ++ [Index.map k]))
          (0 + visitAtt v c (p ++ [Index.map k]))]
      have h1 := visitAtt_count v c (p ++ [Index.map k])
      have h2 := mapLoopAtt_count tl c p k
      simp [h1, h2, numScalarsP, numNonemptyCompositesP]
      omega

end

mutual

/-- With the receiver gone, no record is ever delivered by a visit. -/
theorem visitOut_dead : (j : Json) → ∀ p : Path, visitOut j false p = []
  | .null => by intro p; simp [visitOut_null]
  | .bool b => by intro p; simp [visitOut_bool]
  | .num n => by intro p; simp [visitOut_num]
  | .str v => by intro p; simp [visitOut_str]
  | .arr .nil => by intro p; simp [visitOut_arr_nil]
  | .arr (.cons x tl) => by
      intro p
      simp [visitOut_arr_cons, seqLoopOut_dead (.cons x tl)]
  | .obj .nil => by intro p; simp [visitOut_obj_nil]
  | .obj (.cons k v tl) => by
      intro p
      simp [visitOut_obj_cons, mapLoopOut_dead (.cons k v tl)]

/-- With the receiver gone, the `visit_seq` loop delivers nothing. -/
theorem seqLoopOut_dead : (xs : JsonList) → ∀ (i : Nat) (p : Path),
    seqLoopOut xs i false p = []
  | .nil => by intro i p; simp [seqLoopOut_nil]
  | .cons x tl => by
      intro i p
      simp [seqLoopOut_cons, visitOut_dead x, seqLoopOut_dead tl]

/-- With the receiver gone, the `visit_map` loop delivers nothing. -/
theorem mapLoopOut_dead : (kvs : JsonPairs) → ∀ (p : Path) (k0 : String),
    mapLoopOut kvs false p k0 = []
  | .nil => by intro p k0; simp [mapLoopOut_nil]
  | .cons k v tl => by
      intro p k0
      simp [mapLoopOut_cons, visitOut_dead v, mapLoopOut_dead tl]

end

/-- Record equation under a live receiver: null scalar. -/
theorem streamRecords_null (p : Path) :
    streamRecords .null p = [⟨p, some .null⟩] := by
  simp [streamRecords, visitOut_null]

/-- Record equation under a live receiver: boolean scalar. -/
theorem streamRecords_bool (b : Bool) (p : Path) :
    streamRecords (.bool b) p = [⟨p, some (.boolean b)⟩] := by
  simp [streamRecords, visitOut_bool]

/-- Record equation under a live receiver: number scalar (after the `as f64`
cast). -/
theorem streamRecords_num (n : Int) (p : Path) :
    streamRecords (.num n) p = [⟨p, some (.number (toF64 n))⟩] := by
  simp [streamRecords, visitOut_num]

/-- Record equation under a live receiver: string scalar. -/
theorem streamRecords_str (v : String) (p : Path) :
    streamRecords (.str v) p = [⟨p, some (.string v)⟩] := by
  simp [streamRecords, visitOut_str]

/-- Record equation under a live receiver: empty array. -/
theorem streamRecords_arr_nil (p : Path) :
    streamRecords (.arr .nil) p = [⟨p, some .emptyArray⟩] := by
  simp [streamRecords, visitOut_arr_nil]

/-- Record equation under a live receiver: non-empty array — the loop's
records, then one closing record at the last processed index. -/
theorem streamRecords_arr_cons (x : Json) (tl : JsonList) (p : Path) :
    streamRecords (.arr (.cons x tl)) p =
      seqRecords (.cons x tl) 0 p ++ [⟨p ++ [.array (lenL tl)], none⟩] := by
  simp [streamRecords, seqRecords, visitOut_arr_cons]

/-- Record equation under a live receiver: empty map. -/
theorem streamRecords_obj_nil (p : Path) :
    streamRecords (.obj .nil) p = [⟨p, some .emptyObject⟩] := by
  simp [streamRecords, visitOut_obj_nil]

/-- Record equation under a live receiver: non-empty map — the loop's records,
then one closing record at the last key seen. -/
theorem streamRecords_obj_cons (k : String) (v : Json) (tl : JsonPairs) (p : Path) :
    streamRecords (.obj (.cons k v tl)) p =
      mapRecords (.cons k v tl) p "" ++ [⟨p ++ [.map (lastKeyD tl k)], none⟩] := by
  simp [streamRecords, mapRecords, visitOut_obj_cons]

/-- The exhausted `visit_seq` loop delivers nothing (live receiver). -/
theorem seqRecords_nil (i : Nat) (p : Path) : seqRecords .nil i p = [] := rfl

/-- One live-receiver `visit_seq` loop iteration: the element's records at
path `p ++ [Array(i)]`, then the rest of the loop. -/
theorem seqRecords_cons (x : Json) (tl : JsonList) (i : Nat) (p : Path) :
    seqRecords (.cons x tl) i p =
      streamRecords x (p ++ [.array i]) ++ seqRecords tl (i + 1) p := by
  simp [seqRecords, streamRecords, seqLoopOut_cons]

/-- The exhausted `visit_map` loop delivers nothing (live receiver). -/
theorem mapRecords_nil (p : Path) (k0 : String) : mapRecords .nil p k0 = [] := rfl

/-- One live-receiver `visit_map` loop iteration: the value's records at path
`p ++ [Map(k)]`, then the rest of the loop with `k` on the stack. -/
theorem mapRecords_cons (k : String) (v : Json) (tl : JsonPairs) (p : Path) (k0 : String) :
    mapRecords (.cons k v tl) p k0 =
      streamRecords v (p ++ [.map k]) ++ mapRecords tl p k := by
  simp [mapRecords, streamRecords, mapLoopOut_cons]

/-- The visitor restores the path stack: after any visit the stack equals its
pre-call value (every push is paired with a pop). -/
theorem visit_path (j : Json) (s : StreamState) : (visit j s).path = s.path := by
  cases s with
  | mk c p o a => rw [visit_shift]

/-- The loop counter of `visit_seq` counts exactly the elements: it returns
its starting value plus the length of the element list, for any state. -/
theorem seqLoop_count : (xs : JsonList) → ∀ (i : Nat) (s : StreamState),
    (visitSeqLoop xs i s).2 = i + lenL xs
  | .nil => by intro i s; simp [visitSeqLoop, lenL]
  | .cons x tl => by
      intro i s
      simp only [visitSeqLoop]
      rw [seqLoop_count tl]
      simp [lenL]
      omega

mutual

/-- Counting records under a live receiver: a visit delivers one value-record
per scalar node (empty composites included) and one closing record per
non-empty composite node. -/
theorem countRecords_visit : (j : Json) → ∀ p : Path,
    ((streamRecords j p).countP fun r => r.value.isSome) = numScalars j ∧
    ((streamRecords j p).countP fun r => r.value.isNone) = numNonemptyComposites j
  | .null => by
      intro p
      simp [streamRecords_null, numScalars, numNonemptyComposites]
  | .bool b => by
      intro p
      simp [streamRecords_bool, numScalars, numNonemptyComposites]
  | .num n => by
      intro p
      simp [streamRecords_num, numScalars, numNonemptyComposites]
  | .str v => by
      intro p
      simp [streamRecords_str, numScalars, numNonemptyComposites]
  | .arr .nil => by
      intro p
      simp [streamRecords_arr_nil, numScalars, numNonemptyComposites]
  | .arr (.cons x tl) => by
      intro p
      have h := countRecords_seq (.cons x tl) 0 p
      rw [streamRecords_arr_cons]
      constructor <;>
        simp [List.countP_append, h.1, h.2, numScalars, numNonemptyComposites]
  | .obj .nil => by
      intro p
      simp [streamRecords_obj_nil, numScalars, numNonemptyComposites]
  | .obj (.cons k v tl) => by
      intro p
      have h := countRecords_map (.cons k v tl) p ""
      rw [streamRecords_obj_cons]
      constructor <;>
        simp [List.countP_append, h.1, h.2, numScalars, numNonemptyComposites]

/-- Counting records of the `visit_seq` loop: sums of the element counts. -/
theorem countRecords_seq : (xs : JsonList) → ∀ (i : Nat) (p : Path),
    ((seqRecords xs i p).countP fun r => r.value.isSome) = numScalarsL xs ∧
    ((seqRecords xs i p).countP fun r => r.value.isNone) = numNonemptyCompositesL xs
  | .nil => by
      intro i p
      simp [seqRecords_nil, numScalarsL, numNonemptyCompositesL]
  | .cons x tl => by
      intro i p
      have h1 := countRecords_visit x (p ++ [.array i])
      have h2 := countRecords_seq tl (i + 1) p
      rw [seqRecords_cons]
      constructor <;>
        simp [List.countP_append, h1.1, h1.2, h2.1, h2.2, numScalarsL,
          numNonemptyCompositesL]

/-- Counting records of the `visit_map` loop: sums of the value counts. -/
theorem countRecords_map : (kvs : JsonPairs) → ∀ (p : Path) (k0 : String),
    ((mapRecords kvs p k0).countP fun r => r.value.isSome) = numScalarsP kvs ∧
    ((mapRecords kvs p k0).countP fun r => r.value.isNone) = numNonemptyCompositesP kvs
  | .nil => by
      intro p k0
      simp [mapRecords_nil, numScalarsP, numNonemptyCompositesP]
  | .cons k v tl => by
      intro p k0
      have h1 := countRecords_visit v (p ++ [.map k])
      have h2 := countRecords_map tl p k
      rw [mapRecords_cons]
      constructor <;>
        simp [List.countP_append, h1.1, h1.2, h2.1, h2.2, numScalarsP,
          numNonemptyCompositesP]

end

mutual

/-- Every closing record delivered while visiting a node at path `p` lies at
depth at least `p.length + 1`: closing records always carry a child path. -/
theorem closeDepth_visit : (j : Json) → ∀ (p : Path) (r : PathValue),
    r ∈ streamRecords j p → r.value = none → p.length + 1 ≤ r.path.length
  | .null => by
      intro p r hr hv
      simp [streamRecords_null] at hr
      subst hr
      simp at hv
  | .bool b => by
      intro p r hr hv
      simp [streamRecords_bool] at hr
      subst hr
      simp at hv
  | .num n => by
      intro p r hr hv
      simp [streamRecords_num] at hr
      subst hr
      simp at hv
  | .str v => by
      intro p r hr hv
      simp [streamRecords_str] at hr
      subst hr
      simp at hv
  | .arr .nil => by
      intro p r hr hv
      simp [streamRecords_arr_nil] at hr
      subst hr
      simp at hv
  | .arr (.cons x tl) => by
      intro p r hr hv
      rw [streamRecords_arr_cons] at hr
      rcases List.mem_append.mp hr with h | h
      · have := closeDepth_seq (.cons x tl) 0 p r h hv
        omega
      · simp at h
        subst h
        simp
  | .obj .nil => by
      intro p r hr hv
      simp [streamRecords_obj_nil] at hr
      subst hr
      simp at hv
  | .obj (.cons k v tl) => by
      intro p r hr hv
      rw [streamRecords_obj_cons] at hr
      rcases List.mem_append.mp hr with h | h
      · have := closeDepth_map (.cons k v tl) p "" r h hv
        omega
      · simp at h
        subst h
        simp

/-- Closing records delivered by the `visit_seq` loop lie at depth at least
`p.length + 2` (children sit one level below `p`, their closings below that). -/
theorem closeDepth_seq : (xs : JsonList) → ∀ (i : Nat) (p : Path) (r : PathValue),
    r ∈ seqRecords xs i p → r.value = none → p.length + 2 ≤ r.path.length
  | .nil => by
      intro i p r hr hv
      simp [seqRecords_nil] at hr
  | .cons x tl => by
      intro i p r hr hv
      rw [seqRecords_cons] at hr
      rcases List.mem_append.mp hr with h | h
      · have := closeDepth_visit x (p ++ [.array i]) r h hv
        simp at this
        omega
      · exact closeDepth_seq tl (i + 1) p r h hv

/-- Closing records delivered by the `visit_map` loop lie at depth at least
`p.length + 2`. -/
theorem closeDepth_map : (kvs : JsonPairs) → ∀ (p : Path) (k0 : String) (r : PathValue),
    r ∈ mapRecords kvs p k0 → r.value = none → p.length + 2 ≤ r.path.length
  | .nil => by
      intro p k0 r hr hv
      simp [mapRecords_nil] at hr
  | .cons k v tl => by
      intro p k0 r hr hv
      rw [mapRecords_cons] at hr
      rcases List.mem_append.mp hr with h | h
      · have := closeDepth_visit v (p ++ [.map k]) r h hv
        simp at this
        omega
      · exact closeDepth_map tl p k r h hv

end

/-- The `visit_seq` loop delivers no closing record at depth exactly
`p.length + 1`: the filter used to isolate a composite's own closing record
ignores everything the loop delivered. -/
theorem filter_closing_seq (xs : JsonList) (i : Nat) (p : Path) :
    ((seqRecords xs i p).filter
        fun r => r.value.isNone && (r.path.length == p.length + 1)) = [] := by
  rw [List.filter_eq_nil_iff]
  intro r hr h
  simp only [Bool.and_eq_true, beq_iff_eq, Option.isNone_iff_eq_none] at h
  have := closeDepth_seq xs i p r hr h.1
  omega

/-- The `visit_map` loop delivers no closing record at depth exactly
`p.length + 1`. -/
theorem filter_closing_map (kvs : JsonPairs) (p : Path) (k0 : String) :
    ((mapRecords kvs p k0).filter
        fun r => r.value.isNone && (r.path.length == p.length + 1)) = [] := by
  rw [List.filter_eq_nil_iff]
  intro r hr h
  simp only [Bool.and_eq_true, beq_iff_eq, Option.isNone_iff_eq_none] at h
  have := closeDepth_map kvs p k0 r hr h.1
  omega

/-- Every run of the producer delivers a list of successful records, followed
by at most one terminal error value. -/
theorem producerOutput_shape : ∀ items : List ParseResult,
    (∃ vs : List PathValue, producerOutput items = vs.map Except.ok) ∨
    (∃ (vs : List PathValue) (e : String),
        producerOutput items = vs.map Except.ok ++ [Except.error e]) := by
  intro items
  induction items with
  | nil => exact Or.inl ⟨[], rfl⟩
  | cons hd rest ih =>
      cases hd with
      | ok d =>
          rcases ih with ⟨vs, h⟩ | ⟨vs, e, h⟩
          · exact Or.inl ⟨streamRecords d [] ++ vs, by
              simp [producerOutput, h, List.map_append]⟩
          · exact Or.inr ⟨streamRecords d [] ++ vs, e, by
              simp [producerOutput, h, List.map_append]⟩
      | fail sent msg =>
          exact Or.inr ⟨sent, "Deserialization error: " ++ msg, rfl⟩

/-- Successful records contribute no error lines. -/
theorem errLines_map_ok (vs : List PathValue) (t : List (Except String PathValue)) :
    errLines (vs.map Except.ok ++ t) = errLines t := by
  induction vs with
  | nil => simp
  | cons hd tl ih => simpa [errLines] using ih

/-- The consumer loop's error-stream lines are exactly the error messages of
the delivered sequence, in order. -/
theorem consumeLoop_snd (l : List (Except String PathValue)) :
    (consumeLoop l).2 = errLines l := by
  induction l with
  | nil => rfl
  | cons hd tl ih =>
      cases hd with
      | ok v => simpa [consumeLoop, errLines] using ih
      | error e => simpa [consumeLoop, errLines] using ih

/-- An all-successful delivered sequence contributes no error line. -/
theorem errLines_map_ok_nil (vs : List PathValue) :
    errLines (vs.map Except.ok) = [] := by
  have h := errLines_map_ok vs []
  simpa using h

/-- C1: a non-empty array's visit delivers exactly one closing record at
composite depth (path one step longer than the array's own path), and that
record's path ends in the index of the last processed element — the element
count is `lenL tl + 1`, so the last index is `lenL tl`; likewise, a non-empty
map's visit delivers exactly one such closing record, with path ending in the
last key seen.  In both cases the closing record's path is the last child's
path, not the composite's own path. -/
theorem c1_closing_record_unique (p : Path) (x : Json) (tl : JsonList)
    (k : String) (v : Json) (tl2 : JsonPairs) :
    ((streamRecords (.arr (.cons x tl)) p).filter
        fun r => r.value.isNone && (r.path.length == p.length + 1)) =
      [⟨p ++ [.array (lenL tl)], none⟩] ∧
    ((streamRecords (.obj (.cons k v tl2)) p).filter
        fun r => r.value.isNone && (r.path.length == p.length + 1)) =
      [⟨p ++ [.map (lastKeyD tl2 k)], none⟩] := by
  constructor
  · rw [streamRecords_arr_cons, List.filter_append, filter_closing_seq]
    simp
  · rw [streamRecords_obj_cons, List.filter_append, filter_closing_map]
    simp

/-- C2: a zero-element array's visit delivers exactly one `EmptyArray`
value-record at the array's own path and a zero-pair map's visit exactly one
`EmptyObject` value-record at the map's own path — in particular no closing
record; the `visit_seq` loop counter equals the element count (start plus
list length), so it is 0 exactly for an empty array, the `i == 0` branch
shields the `i - 1` of the closing branch, and the subtraction is only ever
computed on a counter of at least 1 — it never underflows. -/
theorem c2_empty_composites :
    (∀ p : Path,
        streamRecords (.arr .nil) p = [⟨p, some .emptyArray⟩] ∧
        streamRecords (.obj .nil) p = [⟨p, some .emptyObject⟩]) ∧
    (∀ (x : Json) (tl : JsonList) (i : Nat) (s : StreamState),
        (visitSeqLoop (.cons x tl) i s).2 = i + lenL tl + 1) ∧
    (∀ (i : Nat) (s : StreamState), (visitSeqLoop .nil i s).2 = i) := by
  refine ⟨fun p => ⟨streamRecords_arr_nil p, streamRecords_obj_nil p⟩, ?_, ?_⟩
  · intro x tl i s
    rw [seqLoop_count]
    simp [lenL]
    omega
  · intro i s
    rfl

/-- C3: emitting a record snapshots the current path stack into the record and
does not mutate the stack (`emit_value`/`emit_close` send `⟨s.path, _⟩` and
leave `path` unchanged); a visit restores the stack to its pre-call value; and
the closing record of a non-empty composite — the last record its visit
delivers — carries the path of the composite's last processed child. -/
theorem c3_emission_invariants :
    (∀ (s : StreamState) (v : PrimitiveValue),
        (emit_value s v).path = s.path ∧
        (emit_value s v).out =
          if s.connected then s.out ++ [⟨s.path, some v⟩] else s.out) ∧
    (∀ s : StreamState,
        (emit_close s).path = s.path ∧
        (emit_close s).out =
          if s.connected then s.out ++ [⟨s.path, none⟩] else s.out) ∧
    (∀ (j : Json) (s : StreamState), (visit j s).path = s.path) ∧
    (∀ (p : Path) (x : Json) (tl : JsonList),
        (streamRecords (.arr (.cons x tl)) p).getLast? =
          some ⟨p ++ [.array (lenL tl)], none⟩) ∧
    (∀ (p : Path) (k : String) (v : Json) (tl : JsonPairs),
        (streamRecords (.obj (.cons k v tl)) p).getLast? =
          some ⟨p ++ [.map (lastKeyD tl k)], none⟩) := by
  refine ⟨fun s v => ⟨rfl, rfl⟩, fun s => ⟨rfl, rfl⟩, visit_path, ?_, ?_⟩
  · intro p x tl
    rw [streamRecords_arr_cons]
    simp
  · intro p k v tl
    rw [streamRecords_obj_cons]
    simp

/-- C4: for every document the number of value-records delivered equals the
number of scalar nodes (Null/Boolean/Number/String plus the
EmptyArray/EmptyObject sentinels), and the number of closing records equals
the number of non-empty composite nodes. -/
theorem c4_record_counts (j : Json) (p : Path) :
    ((streamRecords j p).countP fun r => r.value.isSome) = numScalars j ∧
    ((streamRecords j p).countP fun r => r.value.isNone) = numNonemptyComposites j :=
  countRecords_visit j p

/-- C5 counterexample: on the example input the four lines claimed by the spec
are not the program's whole output, so the claimed equality is false. -/
theorem c5_counterexample :
    (((streamRecords exampleDoc []).map render ==
        ["[[\"a\",0],1]", "[[\"a\",1],2]", "[[\"a\",1]]", "[[\"b\"],\x7b\x7d]"]) =
      false) := by
  decide

/-- C5 amended: the program's output lines for the example input are the four
claimed lines followed by a fifth, `[[["b"]]]` — the closing record of the
non-empty root object, carried at its last key.  No `[[]]` line appears: no
record carries the root's own empty path. -/
theorem c5_actual_output :
    (streamRecords exampleDoc []).map render =
      ["[[\"a\",0],1]", "[[\"a\",1],2]", "[[\"a\",1]]", "[[\"b\"],\x7b\x7d]",
        "[[\"b\"]]"] := by
  decide

/-- C6: the delivered sequence of every run is a prefix of successful records
followed by at most one error value; an error, when delivered, is terminal —
no record of any kind follows it, and the producer sends nothing further. -/
theorem c6_error_is_terminal (items : List ParseResult) :
    (∃ vs : List PathValue, producerOutput items = vs.map Except.ok) ∨
    (∃ (vs : List PathValue) (e : String),
        producerOutput items = vs.map Except.ok ++ [Except.error e]) :=
  producerOutput_shape items

/-- C7: `Stream::deserialize` starts every document with a fresh empty path
stack, and after the complete traversal the stack is empty again — every push
performed by the array and map visitors is paired with a pop. -/
theorem c7_path_stack_empty (j : Json) :
    (visit j ⟨true, [], [], 0⟩).path = [] :=
  visit_path j ⟨true, [], [], 0⟩

/-- C8 counterexample: with the receiver already dropped, visiting the
two-element array `[1,2]` still makes three send attempts.  Had the producer
terminated at its first failed send — as the claim states — at most one
attempt could have happened; instead only delivery stops (nothing is
delivered), while production continues. -/
theorem c8_counterexample :
    (visit (.arr (.cons (.num 1) (.cons (.num 2) .nil)))
        ⟨false, [], [], 0⟩).out = [] ∧
    (visit (.arr (.cons (.num 1) (.cons (.num 2) .nil)))
        ⟨false, [], [], 0⟩).attempts = 3 ∧
    1 < (visit (.arr (.cons (.num 1) (.cons (.num 2) .nil)))
        ⟨false, [], [], 0⟩).attempts := by
  decide

/-- C8 amended: once the receiver is dropped, every send attempt fails and the
`SendError` is silently discarded (`.ok()`), so no record is delivered and no
error is reported; but the producer does not terminate early — it traverses
the whole document, attempting one send per scalar node and one per non-empty
composite node. -/
theorem c8_amended_silent_discard (j : Json) (p : Path) :
    visit j ⟨false, p, [], 0⟩ =
      ⟨false, p, [], numScalars j + numNonemptyComposites j⟩ := by
  rw [visit_shift]
  simp [visitOut_dead j, visitAtt_count j]

/-- C9: `main` prints each delivered error as exactly one line on the error
stream, in order (and the producer delivers at most one, so at most one error
line per run), and always returns `Ok(())` — the process exits with code 0
even after an error line has been printed. -/
theorem c9_main_returns_ok (items : List ParseResult) :
    (mainRun items).exitResult = Except.ok () ∧
    (mainRun items).stderrLines = errLines (producerOutput items) ∧
    (mainRun items).stderrLines.length ≤ 1 := by
  refine ⟨rfl, ?_, ?_⟩
  · simpa [mainRun] using consumeLoop_snd (producerOutput items)
  · rcases producerOutput_shape items with ⟨vs, hv⟩ | ⟨vs, e, hv⟩ <;>
      simp [mainRun, consumeLoop_snd, hv, errLines_map_ok, errLines_map_ok_nil,
        errLines]

/-- C10: every integer scalar (delivered through `visit_i64`/`visit_u64`) is
emitted as a `Number` carrying its `as f64` cast, and the cast is lossy above
2^53: the input 9007199254740993 (= 2^53 + 1) is cast to 9007199254740992 (=
2^53), which differs from the input integer. -/
theorem c10_number_cast :
    (∀ (n : Int) (p : Path),
        streamRecords (.num n) p = [⟨p, some (.number (toF64 n))⟩]) ∧
    toF64 9007199254740993 = 9007199254740992 :=
  ⟨fun n p => streamRecords_num n p, by decide⟩

end XqStream
